import Mathlib

/-!
Shallow embedding of `covviz/covviz.py` (brwnj/indexcov-nf).

The file embeds the functions `parse_roc`, `compress_data`, `parse_args` and
`cli` of the source.  The sibling parsers `parse_bed`, `parse_gff` and
`parse_ped` are not part of this repository's sources; `cli` is therefore
parameterised over them, and the lzstring compression used by
`compress_data` is modelled from the spec (see `compressToBase64`).

Python conventions mirrored here:
- a `csv.DictReader` row is an association list from column name to string,
  looked up first-match; a missing key raises `KeyError`;
- a `dict` is an association list with `set` replacing the first occurrence
  in place (or appending when the key is new), mirroring insertion order;
- `defaultdict(lambda: defaultdict(list))` reads default to `[]`;
- exceptions are the `Except Err` monad.
-/

namespace Covviz

/-- Python exceptions that the embedded code can raise. -/
inductive Err where
  | keyError (k : String)
  | valueError (msg : String)
  | formatError (msg : String)
deriving DecidableEq, Repr

/-- `Except.isOk` written out, to keep the development self-contained. -/
def isOkE {β : Type} : Except Err β → Bool
  | .ok _ => true
  | .error _ => false

/-- One `csv.DictReader` row: column name to field value, first match wins. -/
abbrev Row : Type := List (String × String)

/-- First-match association-list lookup (Python `dict` access, as `Option`). -/
def lookupA {β : Type} : List (String × β) → String → Option β
  | [], _ => none
  | (k, v) :: rest, key => if k = key then some v else lookupA rest key

/-- `row[key]` — raises `KeyError` when the column is absent. -/
def rowGet (row : Row) (key : String) : Except Err String :=
  match lookupA row key with
  | some v => .ok v
  | none => .error (.keyError key)

/-- Python `str.strip(chars)`: remove from both ends every character that
occurs in `chars`. -/
def pyStrip (s : String) (chars : List Char) : String :=
  String.mk (((s.data.dropWhile (· ∈ chars)).reverse.dropWhile (· ∈ chars)).reverse)

/-- The accumulator `data = defaultdict(lambda: defaultdict(list))`:
chromosome → field → collected strings. -/
abbrev DataT : Type := List (String × List (String × List String))

/-- `data[chr][field]` with the defaultdict semantics (missing → `[]`). -/
def dataGet (d : DataT) (chr field : String) : List String :=
  match lookupA d chr with
  | none => []
  | some inner =>
    match lookupA inner field with
    | none => []
    | some l => l

/-- Update-or-append at a key of an association list. -/
def setA {β : Type} (deflt : β) (f : β → β) : List (String × β) → String → List (String × β)
  | [], key => [(key, f deflt)]
  | (k, v) :: rest, key =>
    if k = key then (k, f v) :: rest else (k, v) :: setA deflt f rest key

/-- `data[chr][field].append(v)`. -/
def dAppend (d : DataT) (chr field : String) (v : String) : DataT :=
  setA [] (fun inner => setA [] (fun l => l ++ [v]) inner field) d chr

/-- One roc line trace, exactly the keyword fields of the `dict(...)` call at
the end of `parse_roc`. -/
structure RocTrace where
  x : List String
  y : List String
  hoverinfo : String
  mode : String
  text : String
  markerColor : String
deriving DecidableEq, Repr

/-- A value stored in the `traces` dictionary: either an entry produced by an
earlier pipeline stage (opaque to `parse_roc`, which never inspects it) or
the `"roc"` entry this stage builds: chromosome → list of line traces. -/
inductive TraceVal (α : Type) where
  | other (a : α)
  | roc (m : List (String × List RocTrace))
deriving DecidableEq

/-- The process-wide trace dictionary. -/
abbrev Traces (α : Type) : Type := List (String × TraceVal α)

/-- `traces.keys()`. -/
def keysT {α : Type} (t : Traces α) : List String := t.map Prod.fst

/-- `traces[k]` as an `Option`. -/
def lookupT {α : Type} (t : Traces α) (k : String) : Option (TraceVal α) :=
  lookupA t k

/-- `traces[k] = v`: replace the first binding of `k` in place, or append. -/
def setT {α : Type} : Traces α → String → TraceVal α → Traces α
  | [], key, v => [(key, v)]
  | (k, w) :: rest, key, v =>
    if k = key then (k, v) :: rest else (k, w) :: setT rest key v

/-- The trace built for one `(chromosome, sample)` pair:
`dict(x=data[chr]["x"], y=data[chr][sample][1:], hoverinfo="text",
mode="lines", text=sample, marker={"color": "rgba(108,117,125,0.2)"})`. -/
def mkTrace (d : DataT) (chr sample : String) : RocTrace :=
  { x := dataGet d chr "x"
    y := (dataGet d chr sample).drop 1
    hoverinfo := "text"
    mode := "lines"
    text := sample
    markerColor := "rgba(108,117,125,0.2)" }

/-- The inner loop `for sample in samples: data[chr][sample].append(row[sample])`. -/
def appendSamples (row : Row) (chr : String) : List String → DataT → Except Err DataT
  | [], d => .ok d
  | s :: ss, d => do
    let v ← rowGet row s
    appendSamples row chr ss (dAppend d chr s v)

/-- The body of the `for row in reader` loop for one row.  `keys1` is
`traces.keys()` as it stands during the loop (it already holds `"roc"`). -/
def step (keys1 : List String) (samples : List String) (row : Row) (d : DataT) :
    Except Err DataT := do
  let cv ← rowGet row "#chrom"
  if cv = "#chrom" then
    .ok d
  else
    let chr := pyStrip cv ['c', 'h', 'r']
    if chr ∈ keys1 then do
      let cov ← rowGet row "cov"
      appendSamples row chr samples (dAppend d chr "x" cov)
    else
      .ok d

/-- The whole reader loop of `parse_roc`. -/
def processRows (keys1 : List String) (samples : List String) :
    List Row → DataT → Except Err DataT
  | [], d => .ok d
  | row :: rest, d => do
    let d1 ← step keys1 samples row d
    processRows keys1 samples rest d1

/-- The output loop: `for chr in chroms: ... for sample in samples: append`. -/
def rocOutput (d : DataT) (chroms samples : List String) :
    List (String × List RocTrace) :=
  chroms.map (fun chr => (chr, samples.map (mkTrace d chr)))

/-- `parse_roc(path, traces, samples)` with the file already read into
`rows`.  Mirrors the source line by line: `chroms` is `traces.keys()` minus
`"chromosomes"` (a `ValueError` when absent), `traces["roc"]` is assigned an
empty dict before the reader runs (so its key participates in the
`not in traces.keys()` filter), and the final nested assignments fill
`traces["roc"]`. -/
def parse_roc {α : Type} (rows : List Row) (traces : Traces α)
    (samples : List String) : Except Err (Traces α) := do
  let keys := keysT traces
  if "chromosomes" ∈ keys then do
    let chroms := keys.erase "chromosomes"
    let traces1 := setT traces "roc" (.roc [])
    let data ← processRows (keysT traces1) samples rows []
    .ok (setT traces1 "roc" (.roc (rocOutput data chroms samples)))
  else
    .error (.valueError "chromosomes is not in list")

/-! ## `compress_data` -/

/-- A Python numeric value as it matters to serialization: either an
ordinary (finite) number, modelled as an integer, or the IEEE `nan`, which
`json.dumps` emits verbatim as the token `NaN`. -/
inductive JNum where
  | int (n : Int)
  | nan
deriving DecidableEq, Repr

/-- The JSON-serializable Python values a trace collection is built from. -/
inductive JVal where
  | jnull
  | jbool (b : Bool)
  | jnum (v : JNum)
  | jstr (s : String)
  | jarr (es : List JVal)
  | jobj (fs : List (String × JVal))

/-- Does `s` start with `pat`? -/
def startsWithL : List Char → List Char → Bool
  | _, [] => true
  | [], _ :: _ => false
  | c :: cs, p :: ps => c == p && startsWithL cs ps

/-- Python `str.replace` on character lists, fuel-bounded so that the
recursion is structural.  Each step consumes at least one character of a
non-empty input when the pattern is non-empty (the only way it is used),
so `fuel = s.length` always suffices. -/
def replaceAux (pat rep : List Char) : Nat → List Char → List Char
  | _, [] => []
  | 0, s => s
  | fuel + 1, c :: cs =>
    if startsWithL (c :: cs) pat then
      rep ++ replaceAux pat rep fuel (List.drop pat.length (c :: cs))
    else
      c :: replaceAux pat rep fuel cs

/-- Python `str.replace(pat, rep)`: replace every non-overlapping
occurrence of `pat`, scanning left to right (`pat` non-empty at every use
site). -/
def pyReplace (s pat rep : String) : String :=
  String.mk (replaceAux pat.data rep.data s.data.length s.data)

/-- `json.dumps` escaping of one character inside a string literal. -/
def escChar (c : Char) : String :=
  if c = '"' then "\\\""
  else if c = '\\' then "\\\\"
  else if c = '\n' then "\\n"
  else if c = '\t' then "\\t"
  else if c = '\r' then "\\r"
  else String.mk [c]

/-- `json.dumps` of a string literal. -/
def dumpStr (s : String) : String :=
  "\"" ++ String.join (s.data.map escChar) ++ "\""

mutual

/-- `json.dumps` with its default separators (`", "` and `": "`); a `nan`
float is emitted as the bare token `NaN`, exactly as CPython does. -/
def dumps : JVal → String
  | .jnull => "null"
  | .jbool true => "true"
  | .jbool false => "false"
  | .jnum (.int n) => toString n
  | .jnum .nan => "NaN"
  | .jstr s => dumpStr s
  | .jarr es => "[" ++ dumpsList es ++ "]"
  | .jobj fs => "\x7b" ++ dumpsObj fs ++ "\x7d"

def dumpsList : List JVal → String
  | [] => ""
  | [e] => dumps e
  | e :: es => dumps e ++ ", " ++ dumpsList es

def dumpsObj : List (String × JVal) → String
  | [] => ""
  | [(k, v)] => dumpStr k ++ ": " ++ dumps v
  | (k, v) :: fs => dumpStr k ++ ": " ++ dumps v ++ ", " ++ dumpsObj fs

end

mutual

/-- The value-level normalization the spec describes: replace every
not-a-number numeric value by `null` and leave everything else unchanged. -/
def normalizeNaN : JVal → JVal
  | .jnull => .jnull
  | .jbool b => .jbool b
  | .jnum (.int n) => .jnum (.int n)
  | .jnum .nan => .jnull
  | .jstr s => .jstr s
  | .jarr es => .jarr (normalizeNaNList es)
  | .jobj fs => .jobj (normalizeNaNObj fs)

def normalizeNaNList : List JVal → List JVal
  | [] => []
  | e :: es => normalizeNaN e :: normalizeNaNList es

def normalizeNaNObj : List (String × JVal) → List (String × JVal)
  | [] => []
  | (k, v) :: fs => (k, normalizeNaN v) :: normalizeNaNObj fs

end

/-- Modelled from the spec: the lzstring `compressToBase64` routine is not
part of this repository's sources; the spec specifies only that it is "a
reversible text-compression scheme decodable by the client-side report".
It is modelled as a concrete reversible string transformation. -/
def compressToBase64 (s : String) : String :=
  String.mk s.data.reverse

/-- Modelled from the spec: the inverse transformation applied client-side. -/
def decompressFromBase64 (s : String) : String :=
  String.mk s.data.reverse

/-- `compress_data(data)`: serialize, textually replace `NaN` by `null`
(Python `str.replace`, every non-overlapping occurrence left to right) and
compress.  The `.encode("utf-8", "ignore").decode("utf-8")` round trip is
the identity on the (always valid-unicode) serializer output. -/
def compress_data (data : JVal) : String :=
  compressToBase64 (pyReplace (dumps data) "NaN" "null")

/-! ## `parse_args` and `cli` -/

/-- The parsed argument namespace produced by `parse_args`. -/
structure Args where
  bed : String
  roc : String
  exclude : String
  sex_chroms : String
  z_threshold : Rat
  distance_threshold : Int
  slop : Int
  gff : Option String
  output : String
  min_samples : Int
  ped : Option String
  sample_col : String
  sex_col : String
deriving DecidableEq, Repr

/-- The command line as handed to `parse_args`: the two positionals and one
`Option` per flag (`none` = flag absent).  Typed flag values stand for the
argparse `type=` conversions having succeeded; argparse performs no other
check on them. -/
structure Cmdline where
  bed : String
  roc : String
  exclude : Option String := none
  sex_chroms : Option String := none
  z_threshold : Option Rat := none
  distance_threshold : Option Int := none
  slop : Option Int := none
  gff : Option String := none
  output : Option String := none
  min_samples : Option Int := none
  ped : Option String := none
  sample_col : Option String := none
  sex_col : Option String := none

/-- `parse_args()`: fill in the declared defaults.  No value is validated
beyond argparse's type conversion — in particular no sign check exists
anywhere, so the function is total. -/
def parse_args (c : Cmdline) : Args :=
  { bed := c.bed
    roc := c.roc
    exclude := c.exclude.getD
      "^GL|^hs|^chrEBV$|M$|MT$|^NC|_random$|Un_|^HLA\\-|_alt$|hap\\d+$"
    sex_chroms := c.sex_chroms.getD "X,Y"
    z_threshold := c.z_threshold.getD (7 / 2)
    distance_threshold := c.distance_threshold.getD 150000
    slop := c.slop.getD 500000
    gff := c.gff
    output := c.output.getD "covviz_report.html"
    min_samples := c.min_samples.getD 8
    ped := c.ped
    sample_col := c.sample_col.getD "sample_id"
    sex_col := c.sex_col.getD "sex" }

/-- The external `parse_bed`, in the argument order of the call site:
`(bed, exclude, ped, sample_col, sex_col, sex_chroms, z_threshold,
distance_threshold, slop, min_samples)`. -/
def BedParser (α : Type) : Type :=
  String → String → Option String → String → String → String → Rat → Int →
    Int → Int → Except Err (Traces α × List String)

/-- The external `parse_gff`: `(gff, traces)`. -/
def GffParser (α : Type) : Type :=
  Option String → Traces α → Except Err (Traces α)

/-- The external `parse_ped`: `(ped, traces, sample_col, sex_chroms)`. -/
def PedParser (α : Type) : Type :=
  String → Traces α → String → String → Except Err (Traces α)

/-- The `parse_bed` call exactly as `cli` makes it. -/
def bedStage {α : Type} (pb : BedParser α) (args : Args) :
    Except Err (Traces α × List String) :=
  pb args.bed args.exclude args.ped args.sample_col args.sex_col
    args.sex_chroms args.z_threshold args.distance_threshold args.slop
    args.min_samples

/-- `cli()` after argument parsing.  `pb`, `pg`, `pp` are the sibling
parsers (not part of this repository's sources), `render` the template
rendering step, `toJson` the JSON view of the trace collection, and
`rocRows` the content of the roc file.  The returned `.ok` value is the
text printed into the output file, which is opened only after every parse
stage has completed; any `.error` propagates out before the file exists. -/
def cli {α : Type} (pb : BedParser α) (pg : GffParser α) (pp : PedParser α)
    (render : String → String) (toJson : Traces α → JVal)
    (rocRows : List Row) (args : Args) : Except Err String := do
  let exclude := pyReplace (pyReplace args.exclude "~" "") "," "|"
  let bs ← bedStage pb args
  let traces := bs.1
  let samples := bs.2
  let traces ← pg args.gff traces
  let traces ← parse_roc rocRows traces samples
  let traces ← match args.ped with
    | some p => pp p traces args.sample_col args.sex_chroms
    | none => .ok traces
  .ok (render (compress_data (toJson traces)))

/-- `cli` with the dead normalization line removed: the local `exclude`
binding of the source is never used, so this is definitionally the same
function. -/
def cliNoNormalize {α : Type} (pb : BedParser α) (pg : GffParser α)
    (pp : PedParser α) (render : String → String) (toJson : Traces α → JVal)
    (rocRows : List Row) (args : Args) : Except Err String := do
  let bs ← bedStage pb args
  let traces := bs.1
  let samples := bs.2
  let traces ← pg args.gff traces
  let traces ← parse_roc rocRows traces samples
  let traces ← match args.ped with
    | some p => pp p traces args.sample_col args.sex_chroms
    | none => .ok traces
  .ok (render (compress_data (toJson traces)))

/-- The normalized exclusion pattern `cli` computes and then discards. -/
def normalizedExclude (args : Args) : String :=
  pyReplace (pyReplace args.exclude "~" "") "," "|"

/-- "Some parse stage fails": the disjunction, in pipeline order, of the
four parsing stages raising. -/
def StageFails {α : Type} (pb : BedParser α) (pg : GffParser α)
    (pp : PedParser α) (rocRows : List Row) (args : Args) : Prop :=
  isOkE (bedStage pb args) = false ∨
    (∃ t s, bedStage pb args = .ok (t, s) ∧
      (isOkE (pg args.gff t) = false ∨
        (∃ t2, pg args.gff t = .ok t2 ∧
          (isOkE (parse_roc rocRows t2 s) = false ∨
            (∃ t3 p, parse_roc rocRows t2 s = .ok t3 ∧ args.ped = some p ∧
              isOkE (pp p t3 args.sample_col args.sex_chroms) = false)))))

/-! ## General lemmas -/

@[simp]
theorem okBind {β γ : Type} (a : β) (f : β → Except Err γ) :
    (Except.ok a : Except Err β) >>= f = f a := rfl

@[simp]
theorem errorBind {β γ : Type} (e : Err) (f : β → Except Err γ) :
    (Except.error e : Except Err β) >>= f = Except.error e := rfl

theorem processRows_cons (k1 samples : List String) (row : Row) (rest : List Row)
    (d : DataT) :
    processRows k1 samples (row :: rest) d =
      step k1 samples row d >>= processRows k1 samples rest := rfl

theorem processRows_append (k1 samples : List String) (l1 l2 : List Row) (d : DataT) :
    processRows k1 samples (l1 ++ l2) d =
      processRows k1 samples l1 d >>= fun d1 => processRows k1 samples l2 d1 := by
  induction l1 generalizing d with
  | nil => simp [processRows]
  | cons r rest ih =>
    rw [List.cons_append, processRows_cons, processRows_cons]
    cases step k1 samples r d with
    | error e => simp
    | ok d1 => simpa using ih d1

/-! ## Claim C1 -/

/-- Stub external collaborators used to instantiate `cli` in closed
statements. -/
def okGff {α : Type} : GffParser α := fun _ t => .ok t

def okPed {α : Type} : PedParser α := fun _ t _ _ => .ok t

def idRender : String → String := fun s => s

def nullJson {α : Type} : Traces α → JVal := fun _ => JVal.jnull

/-- C1, counterexample.  The normalization performed by `compress_data` is
the textual replacement of the substring `NaN`, so a *string* value whose
content is `NaN` is also altered: the round trip of `"NaN"` (a JSON string,
serialized as `"NaN"` with quotes) yields `"null"`, while the value-level
NaN→null normalization leaves the string untouched. -/
theorem C1_counterexample :
    decompressFromBase64 (compress_data (JVal.jstr "NaN")) ≠
      dumps (normalizeNaN (JVal.jstr "NaN")) := by decide

/-- C1, amended: decompressing the compressed payload reproduces exactly the
pre-compression serialization in which every textual occurrence of the
substring `NaN` — those produced by not-a-number numeric values, but also
those occurring inside string values — has been replaced by `null`. -/
theorem C1_roundtrip_textual_normalization (data : JVal) :
    decompressFromBase64 (compress_data data) =
      pyReplace (dumps data) "NaN" "null" := by
  unfold decompressFromBase64 compress_data compressToBase64
  cases pyReplace (dumps data) "NaN" "null" with
  | mk l => simp

/-! ## Claim C8 -/

/-- A bed-parser probe that records the distance threshold and slop it was
handed; `cli` reaching it is the observation that processing began. -/
def probeBedDS : BedParser Unit := fun _ _ _ _ _ _ _ d s _ =>
  .error (.formatError ("parse_bed called with distance=" ++ toString d ++
    " slop=" ++ toString s))

/-- A command line requesting a negative distance threshold and slop. -/
def negCmd : Cmdline :=
  { bed := "x.bed", roc := "x.roc", distance_threshold := some (-5),
    slop := some (-1) }

/-- C8, counterexample.  Invoked with `--distance-threshold -5 --slop -1`
the program raises no configuration error at startup: argument parsing
accepts both values and `cli` proceeds straight into processing, handing
the unvalidated values to the bed parser (observed here by a probe parser;
no `ConfigError` exists anywhere in the code). -/
theorem C8_counterexample :
    cli probeBedDS okGff okPed idRender nullJson [] (parse_args negCmd) =
      .error (.formatError "parse_bed called with distance=-5 slop=-1") := rfl

/-- C8, amended: no configuration validation exists.  `parse_args` returns
every provided distance threshold and slop unchanged (defaulting absent
ones), and `cli` begins processing by handing exactly those values to the
bed parser, for every argument record — non-positive values included. -/
theorem C8_no_validation :
    (∀ c : Cmdline,
      (parse_args c).distance_threshold = c.distance_threshold.getD 150000 ∧
        (parse_args c).slop = c.slop.getD 500000) ∧
    (∀ (args : Args) (pg : GffParser Unit) (pp : PedParser Unit)
        (render : String → String) (toJson : Traces Unit → JVal)
        (rows : List Row),
      cli probeBedDS pg pp render toJson rows args =
        .error (.formatError ("parse_bed called with distance=" ++
          toString args.distance_threshold ++ " slop=" ++
          toString args.slop))) :=
  ⟨fun _ => ⟨rfl, rfl⟩, fun _ _ _ _ _ _ => rfl⟩

/-! ## Claim C10 -/

/-- A bed-parser probe that reports the exclusion pattern it receives. -/
def probeExclude : BedParser Unit := fun _ e _ _ _ _ _ _ _ _ =>
  .error (.formatError e)

/-- C10: the exclusion pattern handed to the bed parser is exactly the raw
`--exclude` argument (first conjunct, observed by a probe parser), and the
normalized pattern — `~` removed, `,` replaced by `|` — is dead: `cli` is
the same function as its variant with the normalization line deleted
(second conjunct), so the normalized value has no effect on any output. -/
theorem C10_exclude_raw :
    (∀ (args : Args) (pg : GffParser Unit) (pp : PedParser Unit)
        (render : String → String) (toJson : Traces Unit → JVal)
        (rows : List Row),
      cli probeExclude pg pp render toJson rows args =
        .error (.formatError args.exclude)) ∧
    (∀ (α : Type) (pb : BedParser α) (pg : GffParser α) (pp : PedParser α)
        (render : String → String) (toJson : Traces α → JVal)
        (rows : List Row) (args : Args),
      cli pb pg pp render toJson rows args =
        cliNoNormalize pb pg pp render toJson rows args) :=
  ⟨fun _ _ _ _ _ _ => rfl, fun _ _ _ _ _ _ _ _ => rfl⟩

/-! ## Claim C2 -/

/-- C2: if any parsing stage (bed, gff, roc, ped) raises, `cli` aborts with
that failure and produces no output: the output file — which the source
opens only after every parse stage has returned — is never created, so the
`.ok` carrying its content is never produced. -/
theorem C2_abort_before_output {α : Type} (pb : BedParser α) (pg : GffParser α)
    (pp : PedParser α) (render : String → String) (toJson : Traces α → JVal)
    (rocRows : List Row) (args : Args)
    (h : StageFails pb pg pp rocRows args) :
    isOkE (cli pb pg pp render toJson rocRows args) = false := by
  rcases h with h1 | ⟨t, s, hb, h2⟩
  · cases hbs : bedStage pb args with
    | error e => simp [cli, hbs, isOkE]
    | ok v => rw [hbs] at h1; simp [isOkE] at h1
  · rcases h2 with h2 | ⟨t2, hg, h3⟩
    · cases hgs : pg args.gff t with
      | error e => simp [cli, hb, hgs, isOkE]
      | ok v => rw [hgs] at h2; simp [isOkE] at h2
    · rcases h3 with h3 | ⟨t3, p, hr, hp, hpp⟩
      · cases hrs : parse_roc rocRows t2 s with
        | error e => simp [cli, hb, hg, hrs, isOkE]
        | ok v => rw [hrs] at h3; simp [isOkE] at h3
      · cases hps : pp p t3 args.sample_col args.sex_chroms with
        | error e => simp [cli, hb, hg, hr, hp, hps, isOkE]
        | ok v => rw [hps] at hpp; simp [isOkE] at hpp

/-- A bed parser that always raises a format failure. -/
def failBed : BedParser Unit := fun _ _ _ _ _ _ _ _ _ _ =>
  .error (.formatError "bad bed")

theorem C2_abort_before_output_witness :
    StageFails failBed okGff okPed ([] : List Row)
        (parse_args { bed := "a.bed", roc := "a.roc" }) ∧
      isOkE (cli failBed okGff okPed idRender nullJson []
        (parse_args { bed := "a.bed", roc := "a.roc" })) = false :=
  ⟨Or.inl rfl,
    C2_abort_before_output failBed okGff okPed idRender nullJson []
      (parse_args { bed := "a.bed", roc := "a.roc" }) (Or.inl rfl)⟩

/-! ## Claim C3 -/

/-- C3: a data row whose `#chrom` field holds the header token `#chrom` (a
repeated mid-file header) is skipped entirely: deleting it from the file
leaves the result of `parse_roc` unchanged, wherever it occurs. -/
theorem C3_repeated_header_skipped {α : Type} (pre post : List Row) (row : Row)
    (traces : Traces α) (samples : List String)
    (h : rowGet row "#chrom" = .ok "#chrom") :
    parse_roc (pre ++ row :: post) traces samples =
      parse_roc (pre ++ post) traces samples := by
  have hstep : ∀ k1 d, step k1 samples row d = .ok d := by
    intro k1 d
    simp [step, h]
  simp only [parse_roc]
  by_cases hc : "chromosomes" ∈ keysT traces
  · simp only [hc, if_true]
    rw [processRows_append, processRows_append]
    have hrows : ∀ k1 d1, processRows k1 samples (row :: post) d1 =
        processRows k1 samples post d1 := by
      intro k1 d1
      rw [processRows_cons, hstep, okBind]
    simp only [hrows]
  · simp only [hc, if_false]

theorem C3_repeated_header_skipped_witness :
    rowGet [("#chrom", "#chrom"), ("cov", "cov"), ("s1", "s1")] "#chrom" =
        .ok "#chrom" ∧
      parse_roc
          [[("#chrom", "1"), ("cov", "5"), ("s1", "0.9")],
            [("#chrom", "#chrom"), ("cov", "cov"), ("s1", "s1")]]
          ([("chromosomes", TraceVal.other 0), ("1", TraceVal.other 1)] :
            Traces Nat) ["s1"] =
        parse_roc [[("#chrom", "1"), ("cov", "5"), ("s1", "0.9")]]
          ([("chromosomes", TraceVal.other 0), ("1", TraceVal.other 1)] :
            Traces Nat) ["s1"] :=
  ⟨rfl,
    C3_repeated_header_skipped
      [[("#chrom", "1"), ("cov", "5"), ("s1", "0.9")]] []
      [("#chrom", "#chrom"), ("cov", "cov"), ("s1", "s1")]
      ([("chromosomes", TraceVal.other 0), ("1", TraceVal.other 1)] :
        Traces Nat) ["s1"] rfl⟩

/-! ## Claim C4 -/

theorem lookupA_append_single_ne {β : Type} (r : List (String × β)) (k key : String)
    (v : β) (hk : key ≠ k) :
    lookupA (r ++ [(k, v)]) key = lookupA r key := by
  induction r with
  | nil => simp [lookupA, Ne.symm hk]
  | cons p rest ih =>
    rw [List.cons_append]
    show lookupA ((p.1, p.2) :: (rest ++ [(k, v)])) key = lookupA ((p.1, p.2) :: rest) key
    simp only [lookupA]
    split
    · rfl
    · exact ih

theorem rowGet_append_single_ne (r : Row) (k key : String) (v : String)
    (hk : key ≠ k) : rowGet (r ++ [(k, v)]) key = rowGet r key := by
  unfold rowGet
  rw [lookupA_append_single_ne r k key v hk]

theorem appendSamples_append_single_ne (r : Row) (chr k v : String)
    (ss : List String) (hk : k ∉ ss) :
    ∀ d, appendSamples (r ++ [(k, v)]) chr ss d = appendSamples r chr ss d := by
  induction ss with
  | nil => intro d; rfl
  | cons s rest ih =>
    intro d
    have hs : s ≠ k := fun h => hk (h ▸ List.mem_cons_self s rest)
    simp only [appendSamples, rowGet_append_single_ne r k s v hs]
    cases rowGet r s with
    | error e => simp
    | ok w => simpa using ih (fun h => hk (List.mem_cons_of_mem s h)) _

theorem step_append_single_ne (k1 samples : List String) (r : Row) (k v : String)
    (h1 : k ≠ "#chrom") (h2 : k ≠ "cov") (h3 : k ∉ samples) :
    ∀ d, step k1 samples (r ++ [(k, v)]) d = step k1 samples r d := by
  intro d
  simp only [step, rowGet_append_single_ne r k "#chrom" v (fun h => h1 h.symm)]
  cases rowGet r "#chrom" with
  | error e => simp
  | ok cv =>
    simp only [okBind]
    split
    · rfl
    · split
      · simp only [rowGet_append_single_ne r k "cov" v (fun h => h2 h.symm)]
        cases rowGet r "cov" with
        | error e => simp
        | ok cov =>
          simpa using appendSamples_append_single_ne r _ k v samples h3 _
      · rfl

theorem processRows_extra_column (k1 samples : List String) (k : String)
    (h1 : k ≠ "#chrom") (h2 : k ≠ "cov") (h3 : k ∉ samples) :
    ∀ (rows rows' : List Row),
      List.Forall₂ (fun r r' => ∃ w, r' = r ++ [(k, w)]) rows rows' →
        ∀ d, processRows k1 samples rows' d = processRows k1 samples rows d := by
  intro rows rows' hf
  induction hf with
  | nil => intro d; rfl
  | @cons r r' rest rest' hr _ ih =>
    intro d
    obtain ⟨w, rfl⟩ := hr
    rw [processRows_cons, processRows_cons, step_append_single_ne k1 samples r k w h1 h2 h3]
    cases step k1 samples r d with
    | error e => simp
    | ok d1 => simpa using ih d1

/-- C4, amended: a sample column present in the coverage-distribution file
but absent from the established sample set is *silently ignored* — the run
does not fail on its account, and the column contributes nothing: adding
such a column to every row leaves the result of `parse_roc` unchanged.
(The failing direction is the converse: an established sample missing from
a row raises `KeyError`.) -/
theorem C4_extra_column_ignored {α : Type} (traces : Traces α)
    (samples : List String) (k : String) (rows rows' : List Row)
    (h1 : k ≠ "#chrom") (h2 : k ≠ "cov") (h3 : k ∉ samples)
    (hf : List.Forall₂ (fun r r' => ∃ w, r' = r ++ [(k, w)]) rows rows') :
    parse_roc rows' traces samples = parse_roc rows traces samples := by
  simp only [parse_roc]
  by_cases hc : "chromosomes" ∈ keysT traces
  · simp only [hc, if_true]
    rw [processRows_extra_column _ samples k h1 h2 h3 rows rows' hf]
  · simp only [hc, if_false]

theorem C4_extra_column_ignored_witness :
    ("s2" : String) ≠ "#chrom" ∧ ("s2" : String) ≠ "cov" ∧
      "s2" ∉ (["s1"] : List String) ∧
      parse_roc [[("#chrom", "1"), ("cov", "5"), ("s1", "0.9"), ("s2", "0.8")]]
          ([("chromosomes", TraceVal.other 0), ("1", TraceVal.other 1)] :
            Traces Nat) ["s1"] =
        parse_roc [[("#chrom", "1"), ("cov", "5"), ("s1", "0.9")]]
          ([("chromosomes", TraceVal.other 0), ("1", TraceVal.other 1)] :
            Traces Nat) ["s1"] :=
  ⟨by decide, by decide, by decide,
    C4_extra_column_ignored
      ([("chromosomes", TraceVal.other 0), ("1", TraceVal.other 1)] : Traces Nat)
      ["s1"] "s2"
      [[("#chrom", "1"), ("cov", "5"), ("s1", "0.9")]]
      [[("#chrom", "1"), ("cov", "5"), ("s1", "0.9"), ("s2", "0.8")]]
      (by decide) (by decide) (by decide)
      (List.Forall₂.cons ⟨"0.8", rfl⟩ List.Forall₂.nil)⟩

/-- C4, counterexample.  A file whose rows carry a sample column `s2` that
is not in the established sample set `["s1"]` parses without any error —
the run succeeds rather than failing with a format error. -/
theorem C4_counterexample :
    isOkE (parse_roc
        [[("#chrom", "1"), ("cov", "5"), ("s1", "0.9"), ("s2", "0.8")]]
        ([("chromosomes", TraceVal.other 0), ("1", TraceVal.other 1)] :
          Traces Nat) ["s1"]) = true := rfl

/-! ## Claim C7 -/

theorem setT_not_mem {α : Type} (t : Traces α) (k : String) (v : TraceVal α)
    (h : k ∉ keysT t) : setT t k v = t ++ [(k, v)] := by
  induction t with
  | nil => rfl
  | cons p rest ih =>
    have hp : p.1 ≠ k := by
      intro he
      exact h (by simp [keysT, he])
    show setT ((p.1, p.2) :: rest) k v = (p.1, p.2) :: rest ++ [(k, v)]
    simp only [setT, if_neg hp, List.cons_append, List.cons.injEq, true_and]
    exact ih (fun hm => h (by simp [keysT] at hm ⊢; exact Or.inr hm))

theorem setT_append_single {α : Type} (t : Traces α) (k : String)
    (v w : TraceVal α) (h : k ∉ keysT t) :
    setT (t ++ [(k, v)]) k w = t ++ [(k, w)] := by
  induction t with
  | nil => simp [setT]
  | cons p rest ih =>
    have hp : p.1 ≠ k := by
      intro he
      exact h (by simp [keysT, he])
    show setT ((p.1, p.2) :: (rest ++ [(k, v)])) k w = (p.1, p.2) :: (rest ++ [(k, w)])
    simp only [setT, if_neg hp, List.cons.injEq, true_and]
    exact ih (fun hm => h (by simp [keysT] at hm ⊢; exact Or.inr hm))

theorem lookupT_append_single_ne {α : Type} (t : Traces α) (k key : String)
    (v : TraceVal α) (hk : key ≠ k) :
    lookupT (t ++ [(k, v)]) key = lookupT t key :=
  lookupA_append_single_ne t k key v hk

/-- Decomposition of a successful `parse_roc` run. -/
theorem parse_roc_ok {α : Type} {rows : List Row} {traces : Traces α}
    {samples : List String} {t' : Traces α}
    (h : parse_roc rows traces samples = .ok t') :
    "chromosomes" ∈ keysT traces ∧
      ∃ d, processRows (keysT (setT traces "roc" (.roc []))) samples rows [] = .ok d ∧
        t' = setT (setT traces "roc" (.roc [])) "roc"
          (.roc (rocOutput d ((keysT traces).erase "chromosomes") samples)) := by
  by_cases hc : "chromosomes" ∈ keysT traces
  · refine ⟨hc, ?_⟩
    simp only [parse_roc, hc, if_true] at h
    cases hd : processRows (keysT (setT traces "roc" (.roc []))) samples rows [] with
    | error e => rw [hd] at h; simp at h
    | ok d =>
      rw [hd] at h
      simp only [okBind] at h
      cases h
      exact ⟨d, rfl, rfl⟩
  · simp only [parse_roc, hc, if_false] at h
    cases h

/-- C7, amended: provided `"roc"` is not already a key of the input trace
dictionary, a successful `parse_roc` leaves every pre-existing key bound to
its old value and adds exactly the key `"roc"` at the end. -/
theorem C7_append_only {α : Type} (rows : List Row) (traces : Traces α)
    (samples : List String) (t' : Traces α)
    (hroc : "roc" ∉ keysT traces)
    (h : parse_roc rows traces samples = .ok t') :
    (∀ k, k ≠ "roc" → lookupT t' k = lookupT traces k) ∧
      keysT t' = keysT traces ++ ["roc"] := by
  obtain ⟨-, d, -, rfl⟩ := parse_roc_ok h
  rw [setT_not_mem traces "roc" _ hroc, setT_append_single traces "roc" _ _ hroc]
  constructor
  · intro k hk
    exact lookupT_append_single_ne traces "roc" k _ hk
  · simp [keysT]

theorem C7_append_only_witness :
    ("roc" ∉ keysT ([("chromosomes", TraceVal.other 0), ("1", TraceVal.other 1)] :
        Traces Nat)) ∧
      parse_roc [[("#chrom", "1"), ("cov", "5"), ("s1", "0.9")]]
          ([("chromosomes", TraceVal.other 0), ("1", TraceVal.other 1)] :
            Traces Nat) ["s1"] =
        .ok [("chromosomes", TraceVal.other 0), ("1", TraceVal.other 1),
          ("roc", TraceVal.roc [("1",
            [{ x := ["5"], y := [], hoverinfo := "text", mode := "lines",
               text := "s1", markerColor := "rgba(108,117,125,0.2)" }])])] ∧
      (∀ k, k ≠ "roc" →
        lookupT ([("chromosomes", TraceVal.other 0), ("1", TraceVal.other 1),
          ("roc", TraceVal.roc [("1",
            [{ x := ["5"], y := [], hoverinfo := "text", mode := "lines",
               text := "s1", markerColor := "rgba(108,117,125,0.2)" }])])] :
          Traces Nat) k =
          lookupT ([("chromosomes", TraceVal.other 0), ("1", TraceVal.other 1)] :
            Traces Nat) k) ∧
      keysT ([("chromosomes", TraceVal.other 0), ("1", TraceVal.other 1),
          ("roc", TraceVal.roc [("1",
            [{ x := ["5"], y := [], hoverinfo := "text", mode := "lines",
               text := "s1", markerColor := "rgba(108,117,125,0.2)" }])])] :
          Traces Nat) =
        keysT ([("chromosomes", TraceVal.other 0), ("1", TraceVal.other 1)] :
          Traces Nat) ++ ["roc"] := by
  refine ⟨by decide, rfl, ?_⟩
  exact C7_append_only [[("#chrom", "1"), ("cov", "5"), ("s1", "0.9")]]
    ([("chromosomes", TraceVal.other 0), ("1", TraceVal.other 1)] : Traces Nat)
    ["s1"] _ (by decide) rfl

/-- C7, counterexample.  On an input trace dictionary that already contains
the key `"roc"`, `parse_roc` overwrites that key's value, so not every
pre-existing key maps to an unchanged value. -/
theorem C7_counterexample :
    parse_roc ([] : List Row)
        ([("chromosomes", TraceVal.other 0), ("roc", TraceVal.other 1)] :
          Traces Nat) [] =
      .ok [("chromosomes", TraceVal.other 0), ("roc", TraceVal.roc [("roc", [])])] ∧
    lookupT ([("chromosomes", TraceVal.other 0), ("roc", TraceVal.other 1)] :
        Traces Nat) "roc" ≠
      lookupT ([("chromosomes", TraceVal.other 0),
        ("roc", TraceVal.roc [("roc", [])])] : Traces Nat) "roc" :=
  ⟨rfl, by decide⟩

/-! ## Claim C5 -/

theorem dataGet_eq (d : DataT) (c f : String) :
    dataGet d c f = (lookupA ((lookupA d c).getD []) f).getD [] := by
  unfold dataGet
  cases lookupA d c with
  | none => simp [lookupA]
  | some inner => cases hf : lookupA inner f <;> simp [hf]

theorem lookupA_setA_self {β : Type} (deflt : β) (f : β → β)
    (l : List (String × β)) (key : String) :
    lookupA (setA deflt f l key) key = some (f ((lookupA l key).getD deflt)) := by
  induction l with
  | nil => simp [setA, lookupA]
  | cons p rest ih =>
    show lookupA (setA deflt f ((p.1, p.2) :: rest) key) key = _
    by_cases h : p.1 = key
    · simp [setA, h, lookupA]
    · simp [setA, h, lookupA, ih]

theorem lookupA_setA_ne {β : Type} (deflt : β) (f : β → β)
    (l : List (String × β)) (key key' : String) (h : key' ≠ key) :
    lookupA (setA deflt f l key) key' = lookupA l key' := by
  induction l with
  | nil => simp [setA, lookupA, Ne.symm h]
  | cons p rest ih =>
    show lookupA (setA deflt f ((p.1, p.2) :: rest) key) key' = _
    by_cases hp : p.1 = key
    · subst hp
      simp [setA, lookupA, Ne.symm h]
    · simp [setA, hp, lookupA, ih]

theorem dataGet_dAppend (d : DataT) (c fld v c' f' : String) :
    dataGet (dAppend d c fld v) c' f' =
      if c = c' ∧ fld = f' then dataGet d c' f' ++ [v] else dataGet d c' f' := by
  rw [dataGet_eq, dataGet_eq]
  unfold dAppend
  by_cases hc : c = c'
  · subst hc
    rw [lookupA_setA_self]
    simp only [Option.getD_some]
    by_cases hf : fld = f'
    · subst hf
      rw [lookupA_setA_self]
      simp
    · rw [lookupA_setA_ne _ _ _ _ _ (fun he => hf he.symm)]
      simp [hf]
  · rw [lookupA_setA_ne _ _ _ _ _ (fun he => hc he.symm)]
    simp [hc]

/-- Observational agreement of two accumulators on a key set. -/
def Agree (ks : List String) (d e : DataT) : Prop :=
  ∀ c ∈ ks, ∀ f, dataGet d c f = dataGet e c f

/-- Agreement lifted to fallible results: simultaneous success with agreeing
states, or the identical failure. -/
def ExAgree (ks : List String) : Except Err DataT → Except Err DataT → Prop
  | .ok d, .ok e => Agree ks d e
  | .error a, .error b => a = b
  | _, _ => False

theorem Agree.refl (ks : List String) (d : DataT) : Agree ks d d :=
  fun _ _ _ => rfl

theorem Agree.dAppendBoth {ks : List String} {d e : DataT} (h : Agree ks d e)
    (c fld v : String) : Agree ks (dAppend d c fld v) (dAppend e c fld v) := by
  intro c' hc' f'
  rw [dataGet_dAppend, dataGet_dAppend]
  split
  · rw [h c' hc' f']
  · exact h c' hc' f'

theorem appendSamples_exAgree {ks : List String} (row : Row) (chr : String)
    (ss : List String) {d e : DataT} (h : Agree ks d e) :
    ExAgree ks (appendSamples row chr ss d) (appendSamples row chr ss e) := by
  induction ss generalizing d e with
  | nil => exact h
  | cons s rest ih =>
    simp only [appendSamples]
    cases rowGet row s with
    | error a => exact rfl
    | ok v => exact ih (h.dAppendBoth chr s v)

theorem step_exAgree {ks : List String} (k1 samples : List String) (row : Row)
    {d e : DataT} (h : Agree ks d e) :
    ExAgree ks (step k1 samples row d) (step k1 samples row e) := by
  simp only [step]
  cases rowGet row "#chrom" with
  | error a => exact rfl
  | ok cv =>
    simp only [okBind]
    split
    · exact h
    · split
      · cases rowGet row "cov" with
        | error a => exact rfl
        | ok cov =>
          exact appendSamples_exAgree row _ samples (h.dAppendBoth _ "x" cov)
      · exact h

theorem processRows_exAgree {ks : List String} (k1 samples : List String)
    (rows : List Row) {d e : DataT} (h : Agree ks d e) :
    ExAgree ks (processRows k1 samples rows d) (processRows k1 samples rows e) := by
  induction rows generalizing d e with
  | nil => exact h
  | cons row rest ih =>
    rw [processRows_cons, processRows_cons]
    have hs := step_exAgree k1 samples row h
    cases h1 : step k1 samples row d with
    | error a =>
      cases h2 : step k1 samples row e with
      | error b =>
        rw [h1, h2] at hs
        cases hs
        exact rfl
      | ok e1 =>
        rw [h1, h2] at hs
        cases hs
    | ok d1 =>
      cases h2 : step k1 samples row e with
      | error b =>
        rw [h1, h2] at hs
        cases hs
      | ok e1 =>
        rw [h1, h2] at hs
        exact ih hs

/-- Processing a well-formed row whose (normalized) chromosome lies outside
`ks` succeeds and leaves the accumulator unchanged on `ks`. -/
theorem step_off {ks : List String} (k1 samples : List String) (row : Row)
    (d : DataT) (cv covv : String)
    (h1 : rowGet row "#chrom" = .ok cv) (h2 : cv ≠ "#chrom")
    (h3 : pyStrip cv ['c', 'h', 'r'] ∉ ks)
    (h4 : rowGet row "cov" = .ok covv)
    (h5 : ∀ s ∈ samples, ∃ v, rowGet row s = .ok v) :
    ∃ d', step k1 samples row d = .ok d' ∧ Agree ks d' d := by
  have hoff : ∀ (ss : List String) (e : DataT),
      (∀ s ∈ ss, ∃ v, rowGet row s = .ok v) →
      ∃ e', appendSamples row (pyStrip cv ['c', 'h', 'r']) ss e = .ok e' ∧
        Agree ks e' e := by
    intro ss
    induction ss with
    | nil => exact fun e _ => ⟨e, rfl, Agree.refl ks e⟩
    | cons s rest ih =>
      intro e hwf
      obtain ⟨v, hv⟩ := hwf s (List.mem_cons_self s rest)
      obtain ⟨e', he', hag⟩ := ih (dAppend e (pyStrip cv ['c', 'h', 'r']) s v)
        (fun s' hs' => hwf s' (List.mem_cons_of_mem s hs'))
      refine ⟨e', by simp [appendSamples, hv, he'], ?_⟩
      intro c hc f
      rw [hag c hc f, dataGet_dAppend]
      have : ¬(pyStrip cv ['c', 'h', 'r'] = c ∧ s = f) := by
        rintro ⟨rfl, -⟩
        exact h3 hc
      simp [this]
  simp only [step, h1, okBind, if_neg h2]
  split
  · rw [h4]
    simp only [okBind]
    obtain ⟨d', hd', hag⟩ := hoff samples (dAppend d (pyStrip cv ['c', 'h', 'r']) "x" covv)
      h5
    refine ⟨d', hd', ?_⟩
    intro c hc f
    rw [hag c hc f, dataGet_dAppend]
    have : ¬(pyStrip cv ['c', 'h', 'r'] = c ∧ "x" = f) := by
      rintro ⟨rfl, -⟩
      exact h3 hc
    simp [this]
  · exact ⟨d, rfl, Agree.refl ks d⟩

theorem rocOutput_congr {chroms : List String} {d e : DataT}
    (h : Agree chroms d e) (samples : List String) :
    rocOutput d chroms samples = rocOutput e chroms samples := by
  unfold rocOutput
  refine List.map_congr_left ?_
  intro c hc
  have : mkTrace d c = mkTrace e c := by
    funext s
    unfold mkTrace
    rw [h c hc "x", h c hc s]
  rw [this]

/-- C5: a data row whose chromosome, after stripping `c`/`h`/`r` from its
ends, is not among the chromosomes established by the earlier stages
(`traces.keys()` minus `"chromosomes"`) contributes no point to any output
trace: deleting such a (well-formed) row leaves `parse_roc`'s result
unchanged. -/
theorem C5_foreign_chromosome_ignored {α : Type} (pre post : List Row) (row : Row)
    (traces : Traces α) (samples : List String) (cv covv : String)
    (h1 : rowGet row "#chrom" = .ok cv) (h2 : cv ≠ "#chrom")
    (h3 : pyStrip cv ['c', 'h', 'r'] ∉ (keysT traces).erase "chromosomes")
    (h4 : rowGet row "cov" = .ok covv)
    (h5 : ∀ s ∈ samples, ∃ v, rowGet row s = .ok v) :
    parse_roc (pre ++ row :: post) traces samples =
      parse_roc (pre ++ post) traces samples := by
  simp only [parse_roc]
  by_cases hc : "chromosomes" ∈ keysT traces
  · simp only [hc, if_true]
    rw [processRows_append, processRows_append]
    cases hpre : processRows (keysT (setT traces "roc" (.roc []))) samples pre [] with
    | error e => simp
    | ok d =>
      simp only [okBind]
      rw [processRows_cons]
      obtain ⟨d', hstep, hag⟩ := step_off (keysT (setT traces "roc" (.roc [])))
        samples row d cv covv h1 h2 h3 h4 h5
      rw [hstep, okBind]
      have hex := processRows_exAgree
        (keysT (setT traces "roc" (.roc []))) samples post hag
      cases hL : processRows (keysT (setT traces "roc" (.roc []))) samples post d' with
      | error a =>
        cases hR : processRows (keysT (setT traces "roc" (.roc []))) samples post d with
        | error b =>
          rw [hL, hR] at hex
          cases hex
          rfl
        | ok e2 =>
          rw [hL, hR] at hex
          cases hex
      | ok e1 =>
        cases hR : processRows (keysT (setT traces "roc" (.roc []))) samples post d with
        | error b =>
          rw [hL, hR] at hex
          cases hex
        | ok e2 =>
          rw [hL, hR] at hex
          simp only [okBind]
          rw [rocOutput_congr hex samples]
  · simp only [hc, if_false]

theorem C5_foreign_chromosome_ignored_witness :
    rowGet [("#chrom", "GL123"), ("cov", "9"), ("s1", "0.1")] "#chrom" =
        .ok "GL123" ∧
      pyStrip "GL123" ['c', 'h', 'r'] ∉
        (keysT ([("chromosomes", TraceVal.other 0), ("1", TraceVal.other 1)] :
          Traces Nat)).erase "chromosomes" ∧
      parse_roc
          [[("#chrom", "1"), ("cov", "5"), ("s1", "0.9")],
            [("#chrom", "GL123"), ("cov", "9"), ("s1", "0.1")]]
          ([("chromosomes", TraceVal.other 0), ("1", TraceVal.other 1)] :
            Traces Nat) ["s1"] =
        parse_roc [[("#chrom", "1"), ("cov", "5"), ("s1", "0.9")]]
          ([("chromosomes", TraceVal.other 0), ("1", TraceVal.other 1)] :
            Traces Nat) ["s1"] := by
  refine ⟨rfl, by decide, ?_⟩
  exact C5_foreign_chromosome_ignored
    [[("#chrom", "1"), ("cov", "5"), ("s1", "0.9")]] []
    [("#chrom", "GL123"), ("cov", "9"), ("s1", "0.1")]
    ([("chromosomes", TraceVal.other 0), ("1", TraceVal.other 1)] : Traces Nat)
    ["s1"] "GL123" "9" rfl (by decide) (by decide) rfl
    (by
      intro s hs
      rw [List.mem_singleton] at hs
      subst hs
      exact ⟨"0.1", rfl⟩)

/-! ## Claim C6 -/

theorem lookupT_setT_self {α : Type} (t : Traces α) (k : String) (v : TraceVal α) :
    lookupT (setT t k v) k = some v := by
  induction t with
  | nil => simp [setT, lookupT, lookupA]
  | cons p rest ih =>
    show lookupT (setT ((p.1, p.2) :: rest) k v) k = some v
    by_cases h : p.1 = k
    · simp [setT, h, lookupT, lookupA]
    · simp only [setT, if_neg h]
      show lookupA ((p.1, p.2) :: setT rest k v) k = some v
      simp only [lookupA, if_neg h]
      exact ih

theorem lookupA_rocOutput (d : DataT) (chroms samples : List String) (c : String)
    (h : c ∈ chroms) :
    lookupA (rocOutput d chroms samples) c = some (samples.map (mkTrace d c)) := by
  induction chroms with
  | nil => cases h
  | cons c0 cs ih =>
    show lookupA ((c0, samples.map (mkTrace d c0)) :: rocOutput d cs samples) c = _
    by_cases hc : c0 = c
    · subst hc
      simp [lookupA]
    · simp only [lookupA, if_neg hc]
      rcases List.mem_cons.mp h with h | h
      · exact absurd h.symm hc
      · exact ih h

/-- The `"roc"` entry of a trace dictionary, looked up at one chromosome. -/
def lookupRoc {α : Type} (t : Traces α) (c : String) : Option (List RocTrace) :=
  match lookupT t "roc" with
  | some (.roc m) => lookupA m c
  | _ => none

/-- C6: a successful `parse_roc` emits, for every chromosome of the
established set, a trace list with exactly one entry per established
sample — its length is the number of samples, and (for a duplicate-free
sample set) exactly one of its traces is labelled with each sample. -/
theorem C6_one_trace_per_sample {α : Type} (rows : List Row) (traces : Traces α)
    (samples : List String) (t' : Traces α)
    (h : parse_roc rows traces samples = .ok t')
    (c : String) (hc : c ∈ (keysT traces).erase "chromosomes") :
    ∃ l, lookupRoc t' c = some l ∧ l.length = samples.length ∧
      (samples.Nodup →
        ∀ s ∈ samples, (l.filter (fun tr => tr.text == s)).length = 1) := by
  obtain ⟨-, d, -, rfl⟩ := parse_roc_ok h
  refine ⟨samples.map (mkTrace d c), ?_, by simp, ?_⟩
  · unfold lookupRoc
    rw [lookupT_setT_self]
    exact lookupA_rocOutput d _ samples c hc
  · intro hnd s hs
    rw [List.filter_map (mkTrace d c) samples, List.length_map]
    rw [show ((fun tr => tr.text == s) ∘ mkTrace d c) = fun s' => s' == s from rfl]
    rw [← List.countP_eq_length_filter]
    show samples.count s = 1
    exact List.count_eq_one_of_mem hnd hs

theorem C6_one_trace_per_sample_witness :
    parse_roc [[("#chrom", "1"), ("cov", "5"), ("s1", "0.9"), ("s2", "0.4")]]
        ([("chromosomes", TraceVal.other 0), ("1", TraceVal.other 1)] : Traces Nat)
        ["s1", "s2"] =
      .ok [("chromosomes", TraceVal.other 0), ("1", TraceVal.other 1),
        ("roc", TraceVal.roc [("1",
          [{ x := ["5"], y := [], hoverinfo := "text", mode := "lines",
             text := "s1", markerColor := "rgba(108,117,125,0.2)" },
           { x := ["5"], y := [], hoverinfo := "text", mode := "lines",
             text := "s2", markerColor := "rgba(108,117,125,0.2)" }])])] ∧
      ("1" ∈ (keysT ([("chromosomes", TraceVal.other 0), ("1", TraceVal.other 1)] :
        Traces Nat)).erase "chromosomes") ∧
      ∃ l, lookupRoc ([("chromosomes", TraceVal.other 0), ("1", TraceVal.other 1),
          ("roc", TraceVal.roc [("1",
            [{ x := ["5"], y := [], hoverinfo := "text", mode := "lines",
               text := "s1", markerColor := "rgba(108,117,125,0.2)" },
             { x := ["5"], y := [], hoverinfo := "text", mode := "lines",
               text := "s2", markerColor := "rgba(108,117,125,0.2)" }])])] :
          Traces Nat) "1" = some l ∧
        l.length = (["s1", "s2"] : List String).length ∧
        ((["s1", "s2"] : List String).Nodup →
          ∀ s ∈ (["s1", "s2"] : List String),
            (l.filter (fun tr => tr.text == s)).length = 1) := by
  refine ⟨rfl, by decide, ?_⟩
  exact C6_one_trace_per_sample
    [[("#chrom", "1"), ("cov", "5"), ("s1", "0.9"), ("s2", "0.4")]]
    ([("chromosomes", TraceVal.other 0), ("1", TraceVal.other 1)] : Traces Nat)
    ["s1", "s2"] _ rfl "1" (by decide)

/-! ## Claim C9 -/

theorem appendSamples_len {row : Row} {chr : String} {ss : List String}
    (hnd : ss.Nodup) :
    ∀ {d d' : DataT}, appendSamples row chr ss d = .ok d' →
      ∀ c f, (dataGet d' c f).length =
        (dataGet d c f).length + (if c = chr ∧ f ∈ ss then 1 else 0) := by
  induction ss with
  | nil =>
    intro d d' h c f
    cases h
    simp
  | cons s rest ih =>
    intro d d' h c f
    simp only [appendSamples] at h
    cases hv : rowGet row s with
    | error e => rw [hv] at h; cases h
    | ok v =>
      rw [hv, okBind] at h
      have hlen := ih (List.nodup_cons.mp hnd).2 h c f
      rw [hlen, dataGet_dAppend]
      by_cases hc : c = chr
      · subst hc
        by_cases hf : f = s
        · subst hf
          have hfr : f ∉ rest := (List.nodup_cons.mp hnd).1
          simp [hfr, List.mem_cons]
        · have hsf : s ≠ f := fun he => hf he.symm
          simp [List.mem_cons, hf, hsf]
      · have h1 : ¬(chr = c ∧ s = f) := fun hcf => hc hcf.1.symm
        have h2 : ¬(c = chr ∧ f ∈ rest) := fun hcf => hc hcf.1
        have h3 : ¬(c = chr ∧ f ∈ s :: rest) := fun hcf => hc hcf.1
        rw [if_neg h1, if_neg h2, if_neg h3]

/-- The per-chromosome column-length invariant: every established sample's
collected column is as long as the shared `"x"` column. -/
def LenInv (samples : List String) (d : DataT) : Prop :=
  ∀ c s, s ∈ samples → (dataGet d c s).length = (dataGet d c "x").length

theorem step_lenInv {k1 samples : List String} {row : Row} {d d' : DataT}
    (hnd : samples.Nodup) (hx : "x" ∉ samples)
    (h : step k1 samples row d = .ok d') (hinv : LenInv samples d) :
    LenInv samples d' := by
  simp only [step] at h
  cases hcv : rowGet row "#chrom" with
  | error e => rw [hcv] at h; cases h
  | ok cv =>
    rw [hcv, okBind] at h
    split at h
    · cases h
      exact hinv
    · split at h
      · cases hcov : rowGet row "cov" with
        | error e => rw [hcov] at h; cases h
        | ok covv =>
          rw [hcov, okBind] at h
          intro c s hs
          rw [appendSamples_len hnd h c s, appendSamples_len hnd h c "x",
            dataGet_dAppend, dataGet_dAppend]
          have hsx : s ≠ "x" := fun he => hx (he ▸ hs)
          have h1 : ¬(pyStrip cv ['c', 'h', 'r'] = c ∧ "x" = s) :=
            fun hcf => hsx hcf.2.symm
          have h2 : ¬(c = pyStrip cv ['c', 'h', 'r'] ∧ "x" ∈ samples) :=
            fun hcf => hx hcf.2
          by_cases hc : c = pyStrip cv ['c', 'h', 'r']
          · rw [if_neg h1, if_neg h2, if_pos (And.intro hc.symm rfl),
              if_pos (And.intro hc hs)]
            simp [hinv c s hs]
          · have h3 : ¬(pyStrip cv ['c', 'h', 'r'] = c ∧ "x" = "x") :=
              fun hcf => hc hcf.1.symm
            have h4 : ¬(c = pyStrip cv ['c', 'h', 'r'] ∧ s ∈ samples) :=
              fun hcf => hc hcf.1
            rw [if_neg h1, if_neg h2, if_neg h3, if_neg h4]
            simp [hinv c s hs]
      · cases h
        exact hinv

theorem processRows_lenInv {k1 samples : List String} (hnd : samples.Nodup)
    (hx : "x" ∉ samples) :
    ∀ {rows : List Row} {d d' : DataT},
      processRows k1 samples rows d = .ok d' → LenInv samples d →
        LenInv samples d' := by
  intro rows
  induction rows with
  | nil =>
    intro d d' h hinv
    cases h
    exact hinv
  | cons row rest ih =>
    intro d d' h hinv
    rw [processRows_cons] at h
    cases hs : step k1 samples row d with
    | error e => rw [hs] at h; cases h
    | ok d1 =>
      rw [hs, okBind] at h
      exact ih h (step_lenInv hnd hx hs hinv)

theorem lenInv_nil (samples : List String) : LenInv samples [] := by
  intro c s _
  simp [dataGet, lookupA]

/-- C9, amended: provided the established samples are pairwise distinct and
none of them is named `"x"` (the key `parse_roc` uses internally for the
shared coverage column), every emitted trace has `y` equal to its sample's
collected column with the first element removed while `x` keeps the whole
collected coverage column, and whenever `x` is non-empty (at least one data
row matched the chromosome) `x` is exactly one element longer than `y`. -/
theorem C9_y_drops_first {α : Type} (rows : List Row) (traces : Traces α)
    (samples : List String) (t' : Traces α)
    (hnd : samples.Nodup) (hx : "x" ∉ samples)
    (h : parse_roc rows traces samples = .ok t')
    (c : String) (hc : c ∈ (keysT traces).erase "chromosomes") :
    ∃ d l, processRows (keysT (setT traces "roc" (.roc []))) samples rows [] = .ok d ∧
      lookupRoc t' c = some l ∧ l = samples.map (mkTrace d c) ∧
      ∀ tr ∈ l, tr.x = dataGet d c "x" ∧
        (∃ s ∈ samples, tr.text = s ∧ tr.y = (dataGet d c s).drop 1) ∧
        (tr.x ≠ [] → tr.x.length = tr.y.length + 1) := by
  obtain ⟨-, d, hpr, rfl⟩ := parse_roc_ok h
  have hinv : LenInv samples d := processRows_lenInv hnd hx hpr (lenInv_nil samples)
  refine ⟨d, samples.map (mkTrace d c), hpr, ?_, rfl, ?_⟩
  · unfold lookupRoc
    rw [lookupT_setT_self]
    exact lookupA_rocOutput d _ samples c hc
  · intro tr htr
    obtain ⟨s, hs, rfl⟩ := List.mem_map.mp htr
    refine ⟨rfl, ⟨s, hs, rfl, rfl⟩, ?_⟩
    intro hne
    have hlen := hinv c s hs
    have hpos : 0 < (dataGet d c "x").length := by
      cases hget : dataGet d c "x" with
      | nil => exact absurd (by simp [mkTrace, hget]) hne
      | cons a l => simp [hget]
    simp only [mkTrace, List.length_drop, hlen]
    omega

theorem C9_y_drops_first_witness :
    (["s1", "s2"] : List String).Nodup ∧ "x" ∉ (["s1", "s2"] : List String) ∧
      parse_roc [[("#chrom", "1"), ("cov", "5"), ("s1", "0.9"), ("s2", "0.4")]]
          ([("chromosomes", TraceVal.other 0), ("1", TraceVal.other 1)] :
            Traces Nat) ["s1", "s2"] =
        .ok [("chromosomes", TraceVal.other 0), ("1", TraceVal.other 1),
          ("roc", TraceVal.roc [("1",
            [{ x := ["5"], y := [], hoverinfo := "text", mode := "lines",
               text := "s1", markerColor := "rgba(108,117,125,0.2)" },
             { x := ["5"], y := [], hoverinfo := "text", mode := "lines",
               text := "s2", markerColor := "rgba(108,117,125,0.2)" }])])] ∧
      ∃ d l,
        processRows (keysT (setT
            ([("chromosomes", TraceVal.other 0), ("1", TraceVal.other 1)] :
              Traces Nat) "roc" (.roc []))) ["s1", "s2"]
            [[("#chrom", "1"), ("cov", "5"), ("s1", "0.9"), ("s2", "0.4")]] [] =
          .ok d ∧
        lookupRoc ([("chromosomes", TraceVal.other 0), ("1", TraceVal.other 1),
            ("roc", TraceVal.roc [("1",
              [{ x := ["5"], y := [], hoverinfo := "text", mode := "lines",
                 text := "s1", markerColor := "rgba(108,117,125,0.2)" },
               { x := ["5"], y := [], hoverinfo := "text", mode := "lines",
                 text := "s2", markerColor := "rgba(108,117,125,0.2)" }])])] :
            Traces Nat) "1" = some l ∧
        l = (["s1", "s2"] : List String).map (mkTrace d "1") ∧
        ∀ tr ∈ l, tr.x = dataGet d "1" "x" ∧
          (∃ s ∈ (["s1", "s2"] : List String), tr.text = s ∧
            tr.y = (dataGet d "1" s).drop 1) ∧
          (tr.x ≠ [] → tr.x.length = tr.y.length + 1) := by
  refine ⟨by decide, by decide, rfl, ?_⟩
  exact C9_y_drops_first
    [[("#chrom", "1"), ("cov", "5"), ("s1", "0.9"), ("s2", "0.4")]]
    ([("chromosomes", TraceVal.other 0), ("1", TraceVal.other 1)] : Traces Nat)
    ["s1", "s2"] _ (by decide) (by decide) rfl "1" (by decide)

/-- C9, counterexample.  When a sample is literally named `x` — the key
`parse_roc` also uses for the shared coverage column — the coverage column
receives two appends per matching row, so for the *other* samples `x` is
not one element longer than `y`: here the trace for sample `s` has
`x = ["5", "0.7"]` (length 2) but `y = []`. -/
theorem C9_counterexample :
    parse_roc [[("#chrom", "1"), ("cov", "5"), ("x", "0.7"), ("s", "0.9")]]
        ([("chromosomes", TraceVal.other 0), ("1", TraceVal.other 1)] :
          Traces Nat) ["x", "s"] =
      .ok [("chromosomes", TraceVal.other 0), ("1", TraceVal.other 1),
        ("roc", TraceVal.roc [("1",
          [{ x := ["5", "0.7"], y := ["0.7"], hoverinfo := "text",
             mode := "lines", text := "x",
             markerColor := "rgba(108,117,125,0.2)" },
           { x := ["5", "0.7"], y := [], hoverinfo := "text", mode := "lines",
             text := "s", markerColor := "rgba(108,117,125,0.2)" }])])] ∧
    (["x", "s"] : List String).Nodup ∧
    lookupRoc ([("chromosomes", TraceVal.other 0), ("1", TraceVal.other 1),
        ("roc", TraceVal.roc [("1",
          [{ x := ["5", "0.7"], y := ["0.7"], hoverinfo := "text",
             mode := "lines", text := "x",
             markerColor := "rgba(108,117,125,0.2)" },
           { x := ["5", "0.7"], y := [], hoverinfo := "text", mode := "lines",
             text := "s", markerColor := "rgba(108,117,125,0.2)" }])])] :
        Traces Nat) "1" =
      some [{ x := ["5", "0.7"], y := ["0.7"], hoverinfo := "text",
              mode := "lines", text := "x",
              markerColor := "rgba(108,117,125,0.2)" },
            { x := ["5", "0.7"], y := [], hoverinfo := "text", mode := "lines",
              text := "s", markerColor := "rgba(108,117,125,0.2)" }] ∧
    ({ x := ["5", "0.7"], y := [], hoverinfo := "text", mode := "lines",
       text := "s", markerColor := "rgba(108,117,125,0.2)" } : RocTrace).x ≠ [] ∧
    ({ x := ["5", "0.7"], y := [], hoverinfo := "text", mode := "lines",
       text := "s", markerColor := "rgba(108,117,125,0.2)" } : RocTrace).x.length ≠
      ({ x := ["5", "0.7"], y := [], hoverinfo := "text", mode := "lines",
         text := "s", markerColor := "rgba(108,117,125,0.2)" } : RocTrace).y.length
        + 1 :=
  ⟨rfl, by decide, rfl, by decide, by decide⟩

end Covviz
